import Mathlib

/-!
Shallow embedding of `src/supervised/benchmark.py` (asparagus/playground).

The repository is dispatch and configuration glue: an `Algorithm` enum is
mapped to one of six model-construction calls with fixed hyperparameters,
a `pytorch_lightning` wrapper reports per-batch loss/accuracy, and a CLI
entry point resolves two case-insensitive enum names and then runs
`trainer.fit` followed by `trainer.test`.

Model constructions, the trainer, and the tensor library are external
collaborators; we embed model constructions as first-order descriptions of
the constructor calls (`ModelSpec`), the trainer interaction as an event
trace, and the tensor arithmetic the step callbacks perform over exact
rationals.  The `dataset` and `supervised.algorithm` modules are not part
of the sources; the `Algorithm` members are those referenced by
`benchmark.py` itself, while the `Dataset` enum and `dataset.train_test`
are modelled from the spec (marked below).
-/

namespace Benchmark

/-- The six architecture identifiers of `supervised.algorithm.Algorithm`,
exactly as referenced by `train_and_evaluate` in `benchmark.py`. -/
inductive Algorithm where
  | LINEAR
  | DNN
  | CNN
  | SLIM
  | HIGHWAY_NETWORK
  | RESNET
  deriving DecidableEq, Repr

/-- `Algorithm` member names, as Python `Enum.name` yields them. -/
def Algorithm.name : Algorithm → String
  | .LINEAR => "LINEAR"
  | .DNN => "DNN"
  | .CNN => "CNN"
  | .SLIM => "SLIM"
  | .HIGHWAY_NETWORK => "HIGHWAY_NETWORK"
  | .RESNET => "RESNET"

/-- First-order description of the model-constructor call chosen by the
dispatch: each constructor records the callee and the arguments passed in
`train_and_evaluate` (benchmark.py lines 60-75). -/
inductive ModelSpec where
  | Linear (dimensions labels : Nat)
  | DNN (dimensions labels num_layers : Nat)
  | CNN (dimensions labels : Nat)
  | Slim (dimensions labels : Nat)
  | HighwayNetwork (dimensions labels num_layers : Nat)
  | ResidualNetwork (dimensions labels n : Nat)
  deriving DecidableEq, Repr

/-- The dispatch chain of `train_and_evaluate` (benchmark.py lines 60-75),
embedded branch for branch, including the duplicated `SLIM` test on
lines 68-69 and the final `NotImplementedError` branch. -/
def selectModel (algo : Algorithm) (dimensions labels : Nat) :
    Except String ModelSpec :=
  if algo = .LINEAR then .ok (.Linear dimensions labels)
  else if algo = .DNN then .ok (.DNN dimensions labels 10)
  else if algo = .CNN then .ok (.CNN dimensions labels)
  else if algo = .SLIM then .ok (.Slim dimensions labels)
  else if algo = .SLIM then .ok (.Slim dimensions labels)
  else if algo = .HIGHWAY_NETWORK then .ok (.HighwayNetwork dimensions labels 100)
  else if algo = .RESNET then .ok (.ResidualNetwork dimensions labels 3)
  else .error ("Algorithm not implemented: " ++ algo.name)

/-- The dispatch with the duplicated `SLIM` branch removed: the single
correct mapping, used to state that the dead branch changes nothing. -/
def selectModelSingle (algo : Algorithm) (dimensions labels : Nat) :
    Except String ModelSpec :=
  if algo = .LINEAR then .ok (.Linear dimensions labels)
  else if algo = .DNN then .ok (.DNN dimensions labels 10)
  else if algo = .CNN then .ok (.CNN dimensions labels)
  else if algo = .SLIM then .ok (.Slim dimensions labels)
  else if algo = .HIGHWAY_NETWORK then .ok (.HighwayNetwork dimensions labels 100)
  else if algo = .RESNET then .ok (.ResidualNetwork dimensions labels 3)
  else .error ("Algorithm not implemented: " ++ algo.name)

/-- Modelled from the spec: the `dataset` module (its `Dataset` enum) is not
under the sources; the spec fixes only that it is "an enumerated symbol
(e.g. one of a fixed closed set) resolved case-insensitively from user
input" over "a handful of standard image/tabular datasets".  We model a
closed enumeration with uppercase member names (uppercase names are what
case-insensitive resolution via `.upper()` requires); the particular
members are representative, and every theorem below that depends on them
only uses that the names are uppercase and distinct. -/
inductive Dataset where
  | MNIST
  | CIFAR10
  deriving DecidableEq, Repr

/-- `Dataset` member names, as Python `Enum.name` yields them. -/
def Dataset.name : Dataset → String
  | .MNIST => "MNIST"
  | .CIFAR10 => "CIFAR10"

/-- Opaque handles for the train/test example collections produced by the
external dataset loader; the benchmark only passes them to data loaders. -/
inductive DataRef where
  | trainSplit (d : Dataset) (augment : Bool)
  | testSplit (d : Dataset) (augment : Bool)
  deriving DecidableEq, Repr

/-- Modelled from the spec: `dataset.train_test` is not under the sources;
the spec says a split is "a pair (train set, test set) of labeled example
collections, plus derived scalar metadata (feature dimensionality, label
cardinality) needed to size the model input/output layers".  The scalar
metadata is a fixed function of the dataset; the concrete numbers are
representative and no theorem depends on them. -/
def train_test (dset : Dataset) (augment : Bool) : DataRef × DataRef × Nat × Nat :=
  (DataRef.trainSplit dset augment, DataRef.testSplit dset augment,
   (match dset with | .MNIST => 784 | .CIFAR10 => 3072),
   (match dset with | .MNIST => 10 | .CIFAR10 => 10))

/-! ### Tensor-level operations of the step callbacks

`F.nll_loss`, `torch.argmax` and the `(pred == y).float().mean()` accuracy
are library functions external to the repository; we give them exact
reference semantics over rationals.  A batch output is a list of rows
(one row of scores per example); labels are class indices.
`F.log_softmax` itself is not rational-valued, so the development is
parameterized by it: `forward` composes an arbitrary row-wise map
standing for `log_softmax(.., dim=1)` with the wrapped model. -/

/-- `F.nll_loss(y_hat, y)` with the default mean reduction: the mean over
the batch of the negated score the row assigns to the true label. -/
def nll_loss (y_hat : List (List ℚ)) (y : List Nat) : ℚ :=
  let picked := (y_hat.zip y).map (fun p => -(p.fst.getD p.snd 0))
  picked.sum / picked.length

/-- Helper for `argmax`: index of the running maximum, first occurrence
winning, as `torch.argmax(.., dim=1)` reports it. -/
def argmaxAux : List ℚ → Nat → Nat → ℚ → Nat
  | [], _, best, _ => best
  | v :: rest, i, best, bv =>
      if bv < v then argmaxAux rest (i + 1) i v
      else argmaxAux rest (i + 1) best bv

/-- `torch.argmax` over one row of scores. -/
def argmax : List ℚ → Nat
  | [] => 0
  | v :: rest => argmaxAux rest 1 0 v

/-- `(pred == y).float().mean()`: fraction of rows whose argmax equals the
true label. -/
def accuracy (y_hat : List (List ℚ)) (y : List Nat) : ℚ :=
  let correct := (y_hat.zip y).map (fun p => if argmax p.fst = p.snd then (1 : ℚ) else 0)
  correct.sum / correct.length

/-! ### The `Model` Lightning wrapper (benchmark.py lines 14-55)

The wrapper holds the chosen model; its step callbacks are embedded as
pure functions of the (already vectorized) wrapped model `model`, the
external `log_softmax` map, and the batch `(x, y)`. -/

/-- `Model(model)`: the Lightning wrapper object around the chosen model. -/
structure LightningModel where
  model : ModelSpec
  deriving DecidableEq, Repr

/-- `Model.forward`: `log_softmax(self.model(x), dim=1)`. -/
def forward {α : Type} (log_softmax : List (List ℚ) → List (List ℚ))
    (model : α → List (List ℚ)) (x : α) : List (List ℚ) :=
  log_softmax (model x)

/-- Result of `validation_step` / `test_step`: the metrics passed to
`self.log` (in call order) and the returned dict (as a key/value list). -/
structure StepResult where
  logs : List (String × ℚ)
  ret : List (String × ℚ)
  deriving DecidableEq, Repr

/-- `Model.training_step` (lines 23-29): computes the nll loss of the
forward output against the labels, logs it as `train_loss`, returns it. -/
def training_step {α : Type} (log_softmax : List (List ℚ) → List (List ℚ))
    (model : α → List (List ℚ)) (batch : α × List Nat) : ℚ × List (String × ℚ) :=
  let y_hat := forward log_softmax model batch.fst
  let loss := nll_loss y_hat batch.snd
  (loss, [("train_loss", loss)])

/-- `Model.validation_step` (lines 31-39): loss and accuracy of the batch,
logged as `val_loss` / `val_acc` and returned as a dict. -/
def validation_step {α : Type} (log_softmax : List (List ℚ) → List (List ℚ))
    (model : α → List (List ℚ)) (batch : α × List Nat) : StepResult :=
  let y_hat := forward log_softmax model batch.fst
  let loss := nll_loss y_hat batch.snd
  let acc := accuracy y_hat batch.snd
  { logs := [("val_loss", loss), ("val_acc", acc)],
    ret := [("val_loss", loss), ("val_acc", acc)] }

/-- `Model.test_step` (lines 41-49): identical computation to
`validation_step`, logged under `test_loss` / `test_acc`. -/
def test_step {α : Type} (log_softmax : List (List ℚ) → List (List ℚ))
    (model : α → List (List ℚ)) (batch : α × List Nat) : StepResult :=
  let y_hat := forward log_softmax model batch.fst
  let loss := nll_loss y_hat batch.snd
  let acc := accuracy y_hat batch.snd
  { logs := [("test_loss", loss), ("test_acc", acc)],
    ret := [("test_loss", loss), ("test_acc", acc)] }

/-- The optimizer configuration the wrapper can hand the trainer. -/
inductive Optimizer where
  | Adagrad (lr : ℚ)
  deriving DecidableEq, Repr

/-- `Model.configure_optimizers` (lines 51-55):
`torch.optim.Adagrad(self.parameters(), lr=1e-3)`. -/
def configure_optimizers : Optimizer :=
  Optimizer.Adagrad (1 / 1000)

/-! ### `train_and_evaluate` (benchmark.py lines 58-87)

The trainer is external; the calls `train_and_evaluate` makes to it are
recorded as an event trace in order: data loading, model construction,
`trainer.fit` (inside the chosen context manager), `trainer.test`. -/

/-- The context manager wrapping `trainer.fit`:
`torch.autograd.detect_anomaly()` when `debug`, else
`contextlib.suppress()` (a no-op). -/
inductive FitContext where
  | detect_anomaly
  | suppress
  deriving DecidableEq, Repr

/-- `torch.autograd.detect_anomaly() if debug else contextlib.suppress()`
(line 83). -/
def fit_context (debug : Bool) : FitContext :=
  if debug then FitContext.detect_anomaly else FitContext.suppress

/-- One observable call `train_and_evaluate` makes to its collaborators. -/
inductive Event where
  | load_data (dset : Dataset) (augment : Bool)
  | construct_model (m : ModelSpec)
  | fit (ctx : FitContext)
  | test
  deriving DecidableEq, Repr

/-- `train_and_evaluate(algo, dset, augment, debug)` (lines 58-87): loads
the splits, dispatches on the algorithm, wraps the model, runs
`trainer.fit` on the train loader inside the debug context and then
`trainer.test` on the test loader, and returns the underlying `model`
(not the `lightning_model` wrapper).  The result pairs the trace of
collaborator calls with the returned model. -/
def train_and_evaluate (algo : Algorithm) (dset : Dataset)
    (augment debug : Bool) : Except String (List Event × ModelSpec) :=
  let td := train_test dset augment
  let dimensions := td.snd.snd.fst
  let labels := td.snd.snd.snd
  match selectModel algo dimensions labels with
  | .error e => .error e
  | .ok model =>
      let lightning_model := LightningModel.mk model
      .ok ([Event.load_data dset augment,
            Event.construct_model lightning_model.model,
            Event.fit (fit_context debug),
            Event.test],
           lightning_model.model)

/-! ### The entry point (benchmark.py lines 90-126)

Python resolves `Dataset[args.dataset.upper()]` and
`Algorithm[args.algorithm.upper()]`, turning a `KeyError` into one whose
message interpolates the raw input and the list of valid member names
(`str` of a Python list of strings). -/

/-- `Dataset` members keyed by name, in declaration order, as Python
`Enum.__getitem__` sees them. -/
def datasetMembers : List (String × Dataset) :=
  [("MNIST", Dataset.MNIST), ("CIFAR10", Dataset.CIFAR10)]

/-- `Algorithm` members keyed by name, in declaration order. -/
def algorithmMembers : List (String × Algorithm) :=
  [("LINEAR", Algorithm.LINEAR), ("DNN", Algorithm.DNN),
   ("CNN", Algorithm.CNN), ("SLIM", Algorithm.SLIM),
   ("HIGHWAY_NETWORK", Algorithm.HIGHWAY_NETWORK),
   ("RESNET", Algorithm.RESNET)]

/-- `dataset_names = [d.name for d in dataset.Dataset]` (line 91). -/
def dataset_names : List String := datasetMembers.map Prod.fst

/-- `algorithm_names = [a.name for a in algorithm.Algorithm]` (line 92). -/
def algorithm_names : List String := algorithmMembers.map Prod.fst

/-- Python `repr` of a string (single-quoted; the member names contain no
quotes or escapes). -/
def pyStrRepr (s : String) : String := "\x27" ++ s ++ "\x27"

/-- Comma-separated `repr`s, as inside Python `str` of a list. -/
def pyStrListAux : List String → String
  | [] => ""
  | [n] => pyStrRepr n
  | n :: rest => pyStrRepr n ++ ", " ++ pyStrListAux rest

/-- Python `str` of a list of strings, as `%s`-interpolated on lines
113-114 and 119-120. -/
def pyStrList (names : List String) : String :=
  "[" ++ pyStrListAux names ++ "]"

/-- The `KeyError` message
`Invalid <kind> (%s), must be in %s` interpolated with the raw input and
the member-name list. -/
def invalidMsg (kind input : String) (names : List String) : String :=
  "Invalid " ++ kind ++ " (" ++ input ++ "), must be in " ++ pyStrList names

/-- Python `str.upper` (lines 111 and 117): uppercase each character.
For the ASCII member names involved this agrees with `String.toUpper`;
it is written as a plain character map so that it evaluates. -/
def pyUpper (s : String) : String := ⟨s.data.map Char.toUpper⟩

/-- Python `Enum.__getitem__`: the member whose name equals the key. -/
def pyEnumGetItem {α : Type} (members : List (String × α)) (key : String) :
    Option α :=
  (members.find? (fun m => m.fst == key)).map Prod.snd

/-- Lines 110-114: `Dataset[args.dataset.upper()]`, with the `KeyError`
re-raised with the descriptive message. -/
def resolveDataset (input : String) : Except String Dataset :=
  match pyEnumGetItem datasetMembers (pyUpper input) with
  | some d => .ok d
  | none => .error (invalidMsg "dataset" input dataset_names)

/-- Lines 116-120: `Algorithm[args.algorithm.upper()]`, with the
`KeyError` re-raised with the descriptive message. -/
def resolveAlgorithm (input : String) : Except String Algorithm :=
  match pyEnumGetItem algorithmMembers (pyUpper input) with
  | some a => .ok a
  | none => .error (invalidMsg "algorithm" input algorithm_names)

/-- The `__main__` block after argument parsing (lines 109-126): resolve
the dataset, then the algorithm, then call `train_and_evaluate`.  A
failed resolution propagates before anything later runs. -/
def mainRun (datasetArg algorithmArg : String) (augment debug : Bool) :
    Except String (List Event × ModelSpec) := do
  let dset ← resolveDataset datasetArg
  let algo ← resolveAlgorithm algorithmArg
  train_and_evaluate algo dset augment debug

/-- `msg` contains `s` as a contiguous substring. -/
def strContains (msg s : String) : Prop :=
  ∃ pre post : String, msg = pre ++ s ++ post

/-- Some logged metric carries the value `v`. -/
def logsValue (entries : List (String × ℚ)) (v : ℚ) : Prop :=
  ∃ p ∈ entries, p.snd = v

/-- Erase the context-manager information from a trace event, to compare
runs with and without the debug flag. -/
def eraseFitContext : Event → Event
  | Event.fit _ => Event.fit FitContext.suppress
  | e => e

/-! ### Helper lemmas -/

theorem strContains_append_left (a : String) {m s : String}
    (h : strContains m s) : strContains (a ++ m) s := by
  obtain ⟨pre, post, rfl⟩ := h
  exact ⟨a ++ pre, post, by simp [String.append_assoc]⟩

theorem strContains_append_right {m s : String} (b : String)
    (h : strContains m s) : strContains (m ++ b) s := by
  obtain ⟨pre, post, rfl⟩ := h
  exact ⟨pre, post ++ b, by simp [String.append_assoc]⟩

theorem strContains_repr (s : String) : strContains (pyStrRepr s) s :=
  ⟨"\x27", "\x27", rfl⟩

theorem pyStrListAux_contains {names : List String} {n : String}
    (h : n ∈ names) : strContains (pyStrListAux names) n := by
  induction names with
  | nil => cases h
  | cons m rest ih =>
      cases rest with
      | nil =>
          rcases List.mem_cons.mp h with rfl | h2
          · exact strContains_repr n
          · cases h2
      | cons r rs =>
          rcases List.mem_cons.mp h with rfl | h2
          · have h1 := strContains_append_right ", " (strContains_repr n)
            simpa [pyStrListAux, String.append_assoc] using
              strContains_append_right (pyStrListAux (r :: rs)) h1
          · have hrest : strContains (pyStrListAux (r :: rs)) n := ih h2
            simpa [pyStrListAux, String.append_assoc] using
              strContains_append_left (pyStrRepr m ++ ", ") hrest

theorem pyStrList_contains {names : List String} {n : String}
    (h : n ∈ names) : strContains (pyStrList names) n :=
  strContains_append_right "]"
    (strContains_append_left "[" (pyStrListAux_contains h))

theorem invalidMsg_contains_input (kind input : String) (names : List String) :
    strContains (invalidMsg kind input names) input :=
  ⟨"Invalid " ++ kind ++ " (", "), must be in " ++ pyStrList names,
   by simp [invalidMsg, String.append_assoc]⟩

theorem invalidMsg_contains_name (kind input : String) {names : List String}
    {n : String} (h : n ∈ names) :
    strContains (invalidMsg kind input names) n := by
  have : strContains (pyStrList names) n := pyStrList_contains h
  simpa [invalidMsg, String.append_assoc] using
    strContains_append_left
      ("Invalid " ++ kind ++ " (" ++ input ++ "), must be in ") this

theorem pyEnumGetItem_of_mem {α : Type} {members : List (String × α)}
    (hnd : (members.map Prod.fst).Nodup) {k : String} {v : α}
    (hm : (k, v) ∈ members) : pyEnumGetItem members k = some v := by
  induction members with
  | nil => cases hm
  | cons head tail ih =>
      rcases List.mem_cons.mp hm with he | hm2
      · have hp : (head.fst == k) = true := by rw [← he]; simp
        unfold pyEnumGetItem
        rw [List.find?_cons, hp, ← he]
        rfl
      · have hk : k ∈ tail.map Prod.fst := List.mem_map_of_mem Prod.fst hm2
        have hne : (head.fst == k) = false := by
          refine beq_eq_false_iff_ne.mpr ?_
          intro he
          exact (List.nodup_cons.mp hnd).1 (he ▸ hk)
        have htail : pyEnumGetItem tail k = some v :=
          ih (List.nodup_cons.mp hnd).2 hm2
        unfold pyEnumGetItem at htail ⊢
        rw [List.find?_cons, hne]
        exact htail

theorem pyEnumGetItem_eq_none {α : Type} {members : List (String × α)}
    {k : String} (h : k ∉ members.map Prod.fst) :
    pyEnumGetItem members k = none := by
  induction members with
  | nil => rfl
  | cons head tail ih =>
      have hne : (head.fst == k) = false := by
        refine beq_eq_false_iff_ne.mpr ?_
        intro he
        exact h (he ▸ List.mem_map_of_mem Prod.fst (List.mem_cons_self head tail))
      have htail : k ∉ tail.map Prod.fst := fun hk =>
        h (List.mem_cons_of_mem _ hk)
      have hrec := ih htail
      unfold pyEnumGetItem at hrec ⊢
      rw [List.find?_cons, hne]
      exact hrec

/-! ### Claims -/

/-- C1: for each of the six algorithm identifiers the dispatch of
`train_and_evaluate` constructs the corresponding architecture with the
exact fixed hyperparameters (`DNN` with `num_layers = 10`, the highway
network with `num_layers = 100`, the residual network with `n = 3`), and
the duplicated `SLIM` branch never selects a different model than the
single correct mapping `Algorithm.SLIM` to `Slim(dimensions, labels)`:
the dispatch agrees with its deduplicated form on every input. -/
theorem selectModel_dispatch :
    (∀ dimensions labels : Nat,
      selectModel .LINEAR dimensions labels = .ok (.Linear dimensions labels) ∧
      selectModel .DNN dimensions labels = .ok (.DNN dimensions labels 10) ∧
      selectModel .CNN dimensions labels = .ok (.CNN dimensions labels) ∧
      selectModel .SLIM dimensions labels = .ok (.Slim dimensions labels) ∧
      selectModel .HIGHWAY_NETWORK dimensions labels =
        .ok (.HighwayNetwork dimensions labels 100) ∧
      selectModel .RESNET dimensions labels =
        .ok (.ResidualNetwork dimensions labels 3)) ∧
    (∀ (algo : Algorithm) (dimensions labels : Nat),
      selectModel algo dimensions labels = selectModelSingle algo dimensions labels) := by
  refine ⟨fun dimensions labels => ⟨rfl, rfl, rfl, rfl, rfl, rfl⟩, ?_⟩
  intro algo dimensions labels
  cases algo <;> rfl

/-- C2 counterexample: the claim says `training_step` logs both a loss and
an accuracy value for the batch; on the batch with a single example scored
`[-2, -3]` and label `0` the loss is `2` and the accuracy is `1`, but the
metrics logged by `training_step` carry the value `2` only — no accuracy
is logged. -/
theorem training_step_logs_no_accuracy :
    ¬ (logsValue
         (training_step (fun m => m) (fun _ : Unit => [[-2, -3]]) ((), [0])).snd
         (nll_loss (forward (fun m => m) (fun _ : Unit => [[-2, -3]]) ()) [0]) ∧
       logsValue
         (training_step (fun m => m) (fun _ : Unit => [[-2, -3]]) ((), [0])).snd
         (accuracy (forward (fun m => m) (fun _ : Unit => [[-2, -3]]) ()) [0])) := by
  unfold logsValue
  intro h
  obtain ⟨p, hp, hval⟩ := h.2
  have hps : p = ("train_loss",
      nll_loss (forward (fun m => m) (fun _ : Unit => [[-2, -3]]) ()) [0]) := by
    simpa [training_step] using hp
  subst hps
  norm_num [nll_loss, accuracy, argmax, argmaxAux, forward] at hval

/-- C2 amended: every step callback logs the per-batch loss;
`validation_step` and `test_step` additionally log the per-batch accuracy,
while `training_step` logs the loss only. -/
theorem step_logging {α : Type} (log_softmax : List (List ℚ) → List (List ℚ))
    (model : α → List (List ℚ)) (batch : α × List Nat) :
    (training_step log_softmax model batch).snd =
      [("train_loss", nll_loss (forward log_softmax model batch.fst) batch.snd)] ∧
    (validation_step log_softmax model batch).logs =
      [("val_loss", nll_loss (forward log_softmax model batch.fst) batch.snd),
       ("val_acc", accuracy (forward log_softmax model batch.fst) batch.snd)] ∧
    (test_step log_softmax model batch).logs =
      [("test_loss", nll_loss (forward log_softmax model batch.fst) batch.snd),
       ("test_acc", accuracy (forward log_softmax model batch.fst) batch.snd)] :=
  ⟨rfl, rfl, rfl⟩

/-- C3: any input string whose per-character uppercasing names a member of
the dataset enumeration resolves to that member, and likewise for the
algorithm enumeration — resolution is case-insensitive and yields the
corresponding identifier. -/
theorem resolve_valid_names :
    (∀ (s : String) (d : Dataset),
      (pyUpper s, d) ∈ datasetMembers → resolveDataset s = .ok d) ∧
    (∀ (s : String) (a : Algorithm),
      (pyUpper s, a) ∈ algorithmMembers → resolveAlgorithm s = .ok a) := by
  refine ⟨fun s d hm => ?_, fun s a hm => ?_⟩
  · unfold resolveDataset
    rw [pyEnumGetItem_of_mem (by decide) hm]
  · unfold resolveAlgorithm
    rw [pyEnumGetItem_of_mem (by decide) hm]

/-- C3 witness: a lowercase dataset name and a mixed-case algorithm name
both resolve. -/
theorem resolve_valid_names_witness :
    resolveDataset "mnist" = .ok Dataset.MNIST ∧
    resolveAlgorithm "Highway_Network" = .ok Algorithm.HIGHWAY_NETWORK :=
  ⟨resolve_valid_names.1 "mnist" Dataset.MNIST (by decide),
   resolve_valid_names.2 "Highway_Network" Algorithm.HIGHWAY_NETWORK (by decide)⟩

/-- C4: any input string that names no dataset member (after
uppercasing) makes resolution fail with the `KeyError` message, and that
message contains the invalid input and every valid dataset name; likewise
for the algorithm enumeration. -/
theorem resolve_invalid_names :
    (∀ s : String, pyUpper s ∉ dataset_names →
      resolveDataset s = .error (invalidMsg "dataset" s dataset_names) ∧
      strContains (invalidMsg "dataset" s dataset_names) s ∧
      ∀ n ∈ dataset_names, strContains (invalidMsg "dataset" s dataset_names) n) ∧
    (∀ s : String, pyUpper s ∉ algorithm_names →
      resolveAlgorithm s = .error (invalidMsg "algorithm" s algorithm_names) ∧
      strContains (invalidMsg "algorithm" s algorithm_names) s ∧
      ∀ n ∈ algorithm_names, strContains (invalidMsg "algorithm" s algorithm_names) n) := by
  refine ⟨fun s hs => ⟨?_, invalidMsg_contains_input _ _ _,
                       fun n hn => invalidMsg_contains_name _ _ hn⟩,
          fun s hs => ⟨?_, invalidMsg_contains_input _ _ _,
                       fun n hn => invalidMsg_contains_name _ _ hn⟩⟩
  · unfold resolveDataset
    rw [pyEnumGetItem_eq_none hs]
  · unfold resolveAlgorithm
    rw [pyEnumGetItem_eq_none hs]

/-- C4 witness: the spec example "NOTAREALSET" fails dataset resolution
with the descriptive message, and an invalid algorithm name likewise. -/
theorem resolve_invalid_names_witness :
    resolveDataset "NOTAREALSET" =
      .error (invalidMsg "dataset" "NOTAREALSET" dataset_names) ∧
    resolveAlgorithm "notanalgorithm" =
      .error (invalidMsg "algorithm" "notanalgorithm" algorithm_names) :=
  ⟨(resolve_invalid_names.1 "NOTAREALSET" (by decide)).1,
   (resolve_invalid_names.2 "notanalgorithm" (by decide)).1⟩

/-- C5: invoking the entry point with an invalid dataset name and any
valid algorithm name yields the dataset lookup error as the whole result:
`train_and_evaluate` — and with it the data loading and every model
constructor — is never reached, as the error result carries no trace of
collaborator calls. -/
theorem mainRun_fail_fast (s aArg : String) (augment debug : Bool)
    (hbad : pyUpper s ∉ dataset_names)
    (_hvalid : ∃ a : Algorithm, (pyUpper aArg, a) ∈ algorithmMembers) :
    mainRun s aArg augment debug =
      .error (invalidMsg "dataset" s dataset_names) := by
  have hres : resolveDataset s = .error (invalidMsg "dataset" s dataset_names) := by
    unfold resolveDataset
    rw [pyEnumGetItem_eq_none hbad]
  unfold mainRun
  rw [hres]
  rfl

/-- C5 witness: the entry point on `("NOTAREALSET", "LINEAR")` fails with
the dataset lookup error. -/
theorem mainRun_fail_fast_witness :
    mainRun "NOTAREALSET" "LINEAR" false false =
      .error (invalidMsg "dataset" "NOTAREALSET" dataset_names) :=
  mainRun_fail_fast "NOTAREALSET" "LINEAR" false false (by decide)
    ⟨Algorithm.LINEAR, by decide⟩

/-- C6: every run of `train_and_evaluate` calls `trainer.fit` strictly
before `trainer.test` — the trace decomposes around the `fit` event and a
later `test` event — and the function only returns (with the model) after
both appear in the trace. -/
theorem fit_before_test (algo : Algorithm) (dset : Dataset)
    (augment debug : Bool) :
    ∃ (m : ModelSpec) (pre mid post : List Event),
      train_and_evaluate algo dset augment debug =
        .ok (pre ++ Event.fit (fit_context debug) :: mid ++ Event.test :: post, m) := by
  cases algo <;>
    exact ⟨_, [Event.load_data dset augment, Event.construct_model _], [], [], rfl⟩

/-- C7: `forward` is `log_softmax` of the wrapped model output, every
step computes the nll loss of that output against the labels, and
`configure_optimizers` yields Adagrad with learning rate `1e-3`. -/
theorem loss_and_optimizer :
    (∀ (α : Type) (log_softmax : List (List ℚ) → List (List ℚ))
       (model : α → List (List ℚ)) (batch : α × List Nat),
      forward log_softmax model batch.fst = log_softmax (model batch.fst) ∧
      (training_step log_softmax model batch).fst =
        nll_loss (log_softmax (model batch.fst)) batch.snd ∧
      (validation_step log_softmax model batch).ret =
        [("val_loss", nll_loss (log_softmax (model batch.fst)) batch.snd),
         ("val_acc", accuracy (log_softmax (model batch.fst)) batch.snd)] ∧
      (test_step log_softmax model batch).ret =
        [("test_loss", nll_loss (log_softmax (model batch.fst)) batch.snd),
         ("test_acc", accuracy (log_softmax (model batch.fst)) batch.snd)]) ∧
    configure_optimizers = Optimizer.Adagrad (1 / 1000) :=
  ⟨fun _ _ _ _ => ⟨rfl, rfl, rfl, rfl⟩, rfl⟩

/-- C8: `trainer.fit` runs inside the anomaly-detection context exactly
when the debug flag is set (else inside the no-op `suppress` context),
and apart from that context the run is identical: the traces with and
without the flag agree once the context is erased, and the returned model
is the same. -/
theorem debug_anomaly_toggle :
    (∀ debug : Bool, fit_context debug = FitContext.detect_anomaly ↔ debug = true) ∧
    (∀ (algo : Algorithm) (dset : Dataset) (augment debug : Bool),
      ∃ m : ModelSpec,
        train_and_evaluate algo dset augment debug =
          .ok ([Event.load_data dset augment, Event.construct_model m,
                Event.fit (fit_context debug), Event.test], m)) ∧
    (∀ (algo : Algorithm) (dset : Dataset) (augment : Bool),
      Except.map (fun r => (r.fst.map eraseFitContext, r.snd))
          (train_and_evaluate algo dset augment true) =
        Except.map (fun r => (r.fst.map eraseFitContext, r.snd))
          (train_and_evaluate algo dset augment false)) := by
  refine ⟨fun debug => ?_, fun algo dset augment debug => ?_, fun algo dset augment => ?_⟩
  · cases debug <;> simp [fit_context]
  · cases algo <;> exact ⟨_, rfl⟩
  · cases algo <;> rfl

/-- C9: `validation_step` and `test_step` compute identical values on the
same batch and model — same logged values, same returned values — and
differ only in the metric names they log and return under. -/
theorem val_test_steps_agree {α : Type}
    (log_softmax : List (List ℚ) → List (List ℚ))
    (model : α → List (List ℚ)) (batch : α × List Nat) :
    (validation_step log_softmax model batch).logs.map Prod.snd =
      (test_step log_softmax model batch).logs.map Prod.snd ∧
    (validation_step log_softmax model batch).ret.map Prod.snd =
      (test_step log_softmax model batch).ret.map Prod.snd ∧
    (validation_step log_softmax model batch).logs.map Prod.fst =
      ["val_loss", "val_acc"] ∧
    (test_step log_softmax model batch).logs.map Prod.fst =
      ["test_loss", "test_acc"] :=
  ⟨rfl, rfl, rfl, rfl⟩

/-- C10: `train_and_evaluate` returns the model picked by the dispatch
itself — the object the wrapper was built around (`lightning_model.model`)
— and not the Lightning wrapper. -/
theorem returns_underlying_model (algo : Algorithm) (dset : Dataset)
    (augment debug : Bool) :
    ∃ (tr : List Event) (m : ModelSpec),
      train_and_evaluate algo dset augment debug = .ok (tr, m) ∧
      selectModel algo (train_test dset augment).snd.snd.fst
        (train_test dset augment).snd.snd.snd = .ok m ∧
      (LightningModel.mk m).model = m := by
  cases algo <;> exact ⟨_, _, rfl, rfl, rfl⟩

end Benchmark
